import Mathlib

/-!
Verification of the embedding-based similarity clustering and location-ranking
engine of geosetter-lite.

The definitions below are a shallow embedding of
`geosetter_lite/ai_service.py` (class `AIService`: `compute_similarity`,
`_find_similar_groups`, `predict_location`) and of
`geosetter_lite/services/location_database.py` (class `LocationDatabase`).

Modelling conventions:
* Image references are an abstract inhabited type `α` (witnesses use `ℕ`).
* Float values are modelled as exact reals (`ℝ`); the grouping core is stated
  over any linear ordered field `K` because it only compares and averages
  matrix entries, so it can be exercised on `ℚ` where everything is decidable.
* The pretrained models are opaque collaborators: the ResNet feature
  extractor (`extract_features`, which returns `None` on unreadable images)
  is a parameter `extract : α → Option (List ℝ)`, and the CLIP forward pass
  is a parameter producing the image/text embeddings or an exception.
* Exceptions are modelled with `Except` / error components; the SQLite store
  and the seed CSV file are modelled by an explicit `StoreState` record that
  is threaded through the constructor.
-/

namespace GeoSetter

/-! ### `_find_similar_groups` (ai_service.py, lines 165-217)

The loop body of `_find_similar_groups`, translated clause by clause.
`similar_indices` is the inner `for j in range(n)` collection (line 193-196):
note it deliberately has no `j not in visited` test.  `group_avg` is the
average over index pairs `idx1 < idx2` (lines 203-210). -/

variable {K : Type} [LinearOrderedField K] {α : Type}

/-- Lines 190-196: `[j for j in range(n) if i != j and sim[i, j] >= threshold]`. -/
def similar_indices (sim : ℕ → ℕ → K) (threshold : K) (n i : ℕ) : List ℕ :=
  (List.range n).filter (fun j => decide (i ≠ j ∧ threshold ≤ sim i j))

/-- Lines 204-208: the nested loop `for idx1 in group_indices: for idx2 in
group_indices: if idx1 < idx2` collecting each index pair once. -/
def pairs_below (gidx : List ℕ) : List (ℕ × ℕ) :=
  gidx.flatMap (fun a => gidx.filterMap (fun b => if a < b then some (a, b) else none))

/-- Line 210: `np.mean(group_similarities) if group_similarities else 0.0`. -/
def group_avg (sim : ℕ → ℕ → K) (gidx : List ℕ) : K :=
  let sims := (pairs_below gidx).map (fun p => sim p.1 p.2)
  if sims.length = 0 then 0 else sims.sum / (sims.length : K)

/-- Lines 185-216: the outer `for i in range(n)` loop.  The first list
argument is the remaining iteration range, the second is the `visited` set
(as a list; `visited.update(group_indices)` is modelled by appending). -/
def find_groups_go [Inhabited α] (paths : List α) (sim : ℕ → ℕ → K) (threshold : K) :
    List ℕ → List ℕ → List (List α × K)
  | [], _ => []
  | i :: rest, visited =>
    if i ∈ visited then find_groups_go paths sim threshold rest visited
    else
      let sidx := similar_indices sim threshold paths.length i
      if sidx.isEmpty then find_groups_go paths sim threshold rest visited
      else
        ((i :: sidx).map (fun k => paths.getD k default), group_avg sim (i :: sidx))
          :: find_groups_go paths sim threshold rest (visited ++ i :: sidx)

/-- `_find_similar_groups(image_paths, similarity_matrix, threshold)`. -/
def find_similar_groups [Inhabited α] (paths : List α) (sim : ℕ → ℕ → K)
    (threshold : K) : List (List α × K) :=
  find_groups_go paths sim threshold (List.range paths.length) []

/-! ### `compute_similarity` (ai_service.py, lines 105-163) -/

/-- Sum of squares of a vector's entries. -/
noncomputable def sumSq (v : List ℝ) : ℝ := (v.map (fun x => x * x)).sum

/-- `torch.nn.functional.normalize(t, p=2, dim=1)` (line 148): each row is
divided by `max(‖row‖₂, 1e-12)` (torch's default `eps`). -/
noncomputable def l2normalize (v : List ℝ) : List ℝ :=
  v.map (fun x => x / max (Real.sqrt (sumSq v)) (1 / 10 ^ 12))

/-- Dot product of two vectors. -/
noncomputable def dotR (u v : List ℝ) : ℝ := (List.zipWith (· * ·) u v).sum

/-- Cosine similarity of two raw feature vectors: the dot product of their
L2-normalizations (lines 148-151). -/
noncomputable def cosineSim (u v : List ℝ) : ℝ := dotR (l2normalize u) (l2normalize v)

/-- Lines 132-139: the images whose feature extraction succeeded
(`valid_paths`); extraction failures are dropped. -/
def valid_paths (extract : α → Option (List ℝ)) (paths : List α) : List α :=
  paths.filter (fun p => (extract p).isSome)

/-- Lines 132-139: `features_list`, the feature vectors of the retained
images in input order. -/
def features_of (extract : α → Option (List ℝ)) (paths : List α) : List (List ℝ) :=
  (valid_paths extract paths).map (fun p => (extract p).getD [])

/-- Lines 148-151: `similarity_matrix = torch.mm(F_normalized, F_normalized.T)`,
read through entry `(i, j)`. -/
noncomputable def sim_matrix (extract : α → Option (List ℝ)) (paths : List α) :
    ℕ → ℕ → ℝ := fun i j =>
  dotR (((features_of extract paths).map l2normalize).getD i [])
    (((features_of extract paths).map l2normalize).getD j [])

/-- `compute_similarity(image_paths, threshold)` from the extraction results
onward: drop failed extractions (132-139), return `[]` with fewer than two
valid embeddings (141-142), group via `_find_similar_groups` (154-158), and
stably sort the groups by average similarity, highest first (161). -/
noncomputable def compute_similarity [Inhabited α] (extract : α → Option (List ℝ))
    (paths : List α) (threshold : ℝ) : List (List α × ℝ) :=
  if (features_of extract paths).length < 2 then []
  else
    List.insertionSort (fun a b => b.2 ≤ a.2)
      (find_similar_groups (valid_paths extract paths) (sim_matrix extract paths) threshold)

/-! ### `predict_location` (ai_service.py, lines 251-324) -/

/-- Line 309: `softmax(similarity, dim=0)`. -/
noncomputable def softmax (xs : List ℝ) : List ℝ :=
  xs.map (fun x => Real.exp x / (xs.map Real.exp).sum)

/-- Lines 302-306: cosine similarity between the (normalized) image embedding
and each (normalized) candidate text embedding. -/
noncomputable def candidate_scores (imgE : List ℝ) (txtE : List (List ℝ)) : List ℝ :=
  txtE.map (fun t => dotR (l2normalize imgE) (l2normalize t))

/-- `predict_location(image_path, top_k)`.

* `clipAvailable` models the module-level `CLIP_AVAILABLE` flag (line 265).
* `loadModel` models `self.load_clip_model()` (line 270): it runs **outside**
  the `try` block, so its exception propagates to the caller (hence the
  `Except` result type of the whole function).
* `run` models everything fallible inside the `try` block (lines 272-306):
  opening the image, loading the location database and the CLIP forward pass
  producing the image embedding and the per-candidate text embeddings; any
  exception there is caught and turned into `[]` (lines 322-324).
* On success: softmax over the similarity vector (309), then
  `torch.topk(probabilities, min(top_k, len(location_database)))` modelled as
  a stable descending sort of `(probability, candidate)` pairs followed by
  `take` (lines 312-318). -/
noncomputable def predict_location (clipAvailable : Bool)
    (loadModel : Except String Unit)
    (run : Except String (List (ℚ × ℚ × String) × List ℝ × List (List ℝ)))
    (topK : ℕ) : Except String (List (ℚ × ℚ × ℝ)) :=
  if clipAvailable = false then Except.ok []
  else
    match loadModel with
    | Except.error e => Except.error e
    | Except.ok _ =>
      match run with
      | Except.error _ => Except.ok []
      | Except.ok (locs, imgE, txtE) =>
        let probs := softmax (candidate_scores imgE txtE)
        let ranked := List.insertionSort (fun a b => b.1 ≤ a.1) (probs.zip locs)
        Except.ok ((ranked.take (min topK locs.length)).map
          (fun pl => (pl.2.1, pl.2.2.1, pl.1)))

/-! ### `LocationDatabase` (services/location_database.py) -/

/-- One data row of the seed CSV file.  `latitude`/`longitude` are `none`
when `float(row[...])` would fail (missing column or unparsable number),
`description` is `none` when the column is missing (`row['description']`
raises `KeyError`); `country`/`city`/`category` use `row.get(..., '')`. -/
structure CsvRow where
  latitude : Option ℚ
  longitude : Option ℚ
  description : Option String
  country : String
  city : String
  category : String
deriving DecidableEq

/-- One row of the `locations` table (schema at lines 52-62). -/
structure LocationRow where
  latitude : ℚ
  longitude : ℚ
  description : String
  country : String
  city : String
  category : String
deriving DecidableEq

/-- The fatal seed failures: `FileNotFoundError` (lines 94-98) and
`ValueError` (lines 116-123). -/
inductive SeedFailure where
  | seedDatasetMissing
  | invalidSeedData
deriving DecidableEq

/-- The externally visible state: whether the SQLite file exists
(`db_path.exists()`), the committed rows of the `locations` table, and the
seed CSV file (`none` = missing). -/
structure StoreState where
  dbExists : Bool
  dbRows : List LocationRow
  csvFile : Option (List CsvRow)
deriving DecidableEq

/-- Lines 106-114: parsing one CSV row; any failing field aborts the load. -/
def parse_row (r : CsvRow) : Option LocationRow :=
  match r.latitude, r.longitude, r.description with
  | some la, some lo, some d => some ⟨la, lo, d, r.country, r.city, r.category⟩
  | _, _, _ => none

/-- Lines 101-114: the row loop of `_load_locations_from_csv`; the first row
that fails to parse aborts the whole load. -/
def parse_rows : List CsvRow → Option (List LocationRow)
  | [] => some []
  | r :: rs =>
    match parse_row r, parse_rows rs with
    | some l, some ls => some (l :: ls)
    | _, _ => none

/-- `_load_locations_from_csv` (lines 84-123): missing file →
`seedDatasetMissing`; a row failing to parse, or an empty dataset →
`invalidSeedData`. -/
def load_locations_from_csv (csvFile : Option (List CsvRow)) :
    Except SeedFailure (List LocationRow) :=
  match csvFile with
  | none => Except.error SeedFailure.seedDatasetMissing
  | some rows =>
    match parse_rows rows with
    | none => Except.error SeedFailure.invalidSeedData
    | some locs =>
      if locs.isEmpty then Except.error SeedFailure.invalidSeedData else Except.ok locs

/-- `_initialize_database` (lines 44-82).  `sqlite3.connect` creates the
database file and the `CREATE TABLE`/`CREATE INDEX` DDL runs (and, in
autocommit, commits) *before* the CSV is read, so even when the CSV load
fails the on-disk file now exists with an empty `locations` table; the error
is propagated in the second component.  On success the fresh table holds
exactly the parsed rows, in file order. -/
def init_database (s : StoreState) : StoreState × Option SeedFailure :=
  match load_locations_from_csv s.csvFile with
  | Except.error e => ({ s with dbExists := true, dbRows := [] }, some e)
  | Except.ok locs => ({ s with dbExists := true, dbRows := locs }, none)

/-- `LocationDatabase.__init__` (lines 12-42): initialize the database only
if the file does not exist (lines 41-42). -/
def location_database_mk (s : StoreState) : StoreState × Option SeedFailure :=
  if s.dbExists then (s, none) else init_database s

/-- `get_all_locations` (lines 125-139): `SELECT latitude, longitude,
description FROM locations` in insertion order. -/
def get_all_locations (s : StoreState) : List (ℚ × ℚ × String) :=
  s.dbRows.map (fun r => (r.latitude, r.longitude, r.description))

/-- `search_by_region` (lines 157-183): `WHERE latitude BETWEEN min_lat AND
max_lat AND longitude BETWEEN min_lon AND max_lon` (SQL `BETWEEN` is
inclusive at both ends); a `SELECT` leaves the store unchanged, so the same
state is returned. -/
def search_by_region (s : StoreState) (min_lat max_lat min_lon max_lon : ℚ) :
    List (ℚ × ℚ × String) × StoreState :=
  ((s.dbRows.filter (fun r => decide (min_lat ≤ r.latitude ∧ r.latitude ≤ max_lat ∧
      min_lon ≤ r.longitude ∧ r.longitude ≤ max_lon))).map
    (fun r => (r.latitude, r.longitude, r.description)), s)

/-! ### Concrete data used by counterexamples and witnesses -/

/-- Three exactly-unit feature vectors: `v0·v1 = 4/5`, `v1·v2 = 4/5`,
`v0·v2 = 7/25`.  With threshold `3/4`, image `1` is collected into image
`0`'s group and then collected *again* into image `2`'s group. -/
noncomputable def ex_extract : ℕ → Option (List ℝ) := fun p =>
  if p = 0 then some [4/5, 3/5]
  else if p = 1 then some [1, 0]
  else if p = 2 then some [4/5, -(3/5)]
  else none

/-- An extractor for which every image fails feature extraction. -/
def ex_none_extract : ℕ → Option (List ℝ) := fun _ => none

/-- A store state whose database file is missing and whose seed CSV file is
missing. -/
def fs_missing : StoreState := ⟨false, [], none⟩

/-- A store state whose database file exists and is populated with one row. -/
def fs_populated : StoreState := ⟨true, [⟨1, 2, "a", "", "", ""⟩], some []⟩

/-- Modelled from the spec's words for claim C3 ("all unordered pairs of
distinct members, each pair counted exactly once"): the set of ordered
representatives `(a, b)` with `a < b` of the unordered pairs of distinct
elements of `S`. -/
def spec_unordered_pairs (S : Finset ℕ) : Finset (ℕ × ℕ) :=
  (S ×ˢ S).filter (fun p => p.1 < p.2)

/-- Modelled from the spec's words for claim C3: the arithmetic mean of the
pairwise similarities over all unordered pairs of distinct members of `S`. -/
def spec_pair_mean (sim : ℕ → ℕ → K) (S : Finset ℕ) : K :=
  (∑ p in spec_unordered_pairs S, sim p.1 p.2) / ((spec_unordered_pairs S).card : K)

/-! ### Theorems -/

/-- Helper: constructing against an existing database file is a no-op. -/
theorem mk_of_exists {s : StoreState} (h : s.dbExists = true) :
    location_database_mk s = (s, none) := by
  simp [location_database_mk, h]

/-- Helper: constructing against a missing database file initializes it. -/
theorem mk_of_missing {s : StoreState} (h : s.dbExists = false) :
    location_database_mk s = init_database s := by
  simp [location_database_mk, h]

/-- Helper: a failed CSV load leaves the created file with an empty table. -/
theorem init_database_of_error {s : StoreState} {e : SeedFailure}
    (h : load_locations_from_csv s.csvFile = Except.error e) :
    init_database s = ({ s with dbExists := true, dbRows := [] }, some e) := by
  simp [init_database, h]

/-- Helper: a successful CSV load populates the fresh table. -/
theorem init_database_of_ok {s : StoreState} {locs : List LocationRow}
    (h : load_locations_from_csv s.csvFile = Except.ok locs) :
    init_database s = ({ s with dbExists := true, dbRows := locs }, none) := by
  simp [init_database, h]

/-- C2 counterexample: with the seed dataset missing, construction raises
`seedDatasetMissing` — but it leaves the freshly created (empty) database
file behind, so a second construction against the same cache directory
finds the file, skips initialization, and silently succeeds (`none` error)
with an empty store.  This refutes the claimed "no partial store is left
usable". -/
theorem c2_partial_store_cex :
    (location_database_mk fs_missing).2 = some SeedFailure.seedDatasetMissing ∧
    (location_database_mk (location_database_mk fs_missing).1).2 = none ∧
    get_all_locations (location_database_mk (location_database_mk fs_missing).1).1 = [] := by
  refine ⟨rfl, rfl, rfl⟩

/-- C2 (amended): if the seed dataset file is missing, or a row fails to
parse its required fields, or the dataset is empty, then construction fails
with `seedDatasetMissing` resp. `invalidSeedData`; however the database file
created during the failed initialization persists, so a subsequent
construction against the same cache directory silently succeeds with an
empty (partial) store. -/
theorem c2_seed_failure_fatal (s : StoreState) (h : s.dbExists = false) :
    (s.csvFile = none →
      (location_database_mk s).2 = some SeedFailure.seedDatasetMissing) ∧
    (∀ rows, s.csvFile = some rows →
      (parse_rows rows = none ∨ parse_rows rows = some []) →
      (location_database_mk s).2 = some SeedFailure.invalidSeedData) ∧
    (∀ e, (location_database_mk s).2 = some e →
      (location_database_mk (location_database_mk s).1).2 = none ∧
      get_all_locations (location_database_mk (location_database_mk s).1).1 = []) := by
  have hmk : location_database_mk s = init_database s := mk_of_missing h
  refine ⟨?_, ?_, ?_⟩
  · intro hc
    simp [hmk, init_database, load_locations_from_csv, hc]
  · intro rows hc hbad
    rcases hbad with hb | hb <;>
      simp [hmk, init_database, load_locations_from_csv, hc, hb]
  · intro e he
    rw [hmk] at he ⊢
    cases hload : load_locations_from_csv s.csvFile with
    | error e' =>
      rw [init_database_of_error hload]
      rw [mk_of_exists rfl]
      simp [get_all_locations]
    | ok locs =>
      rw [init_database_of_ok hload] at he
      simp at he

/-- C2 witness (for `c2_seed_failure_fatal`) at the concrete state with a
missing database file and a missing seed CSV. -/
theorem c2_seed_failure_fatal_witness :
    fs_missing.dbExists = false ∧
    (fs_missing.csvFile = none →
      (location_database_mk fs_missing).2 = some SeedFailure.seedDatasetMissing) := by
  exact ⟨rfl, (c2_seed_failure_fatal fs_missing rfl).1⟩

/-- C6: seeding is idempotent.  If a construction succeeded (so the store is
populated and the database file exists), a second construction against the
same cache directory skips re-seeding entirely — it returns the very same
state with no error — hence `get_all_locations` returns the same list, and
in particular the same count, after both constructions. -/
theorem c6_idempotent_seeding (s : StoreState)
    (h : (location_database_mk s).2 = none) :
    location_database_mk (location_database_mk s).1 = ((location_database_mk s).1, none) ∧
    get_all_locations (location_database_mk (location_database_mk s).1).1 =
      get_all_locations (location_database_mk s).1 ∧
    (get_all_locations (location_database_mk (location_database_mk s).1).1).length =
      (get_all_locations (location_database_mk s).1).length := by
  have h1 : (location_database_mk s).1.dbExists = true := by
    by_cases hd : s.dbExists = true
    · rw [mk_of_exists hd]; exact hd
    · rw [mk_of_missing (Bool.not_eq_true _ ▸ hd)]
      cases hload : load_locations_from_csv s.csvFile with
      | error e' => rw [init_database_of_error hload]
      | ok locs => rw [init_database_of_ok hload]
  have hmk : location_database_mk (location_database_mk s).1 =
      ((location_database_mk s).1, none) := mk_of_exists h1
  exact ⟨hmk, by rw [hmk], by rw [hmk]⟩

/-- C6 witness at a concrete already-populated store. -/
theorem c6_idempotent_seeding_witness :
    (location_database_mk fs_populated).2 = none ∧
    location_database_mk (location_database_mk fs_populated).1 =
      ((location_database_mk fs_populated).1, none) := by
  exact ⟨rfl, (c6_idempotent_seeding fs_populated rfl).1⟩

/-- C10: `search_by_region` returns exactly the stored locations whose
latitude lies in the closed interval `[min_lat, max_lat]` and whose
longitude lies in the closed interval `[min_lon, max_lon]` (both bounds
inclusive, as SQL `BETWEEN`), and it leaves the store's contents unchanged. -/
theorem c10_search_by_region (s : StoreState) (a b c d : ℚ) :
    (search_by_region s a b c d).2 = s ∧
    (search_by_region s a b c d).1 = (get_all_locations s).filter
      (fun t => decide (a ≤ t.1 ∧ t.1 ≤ b ∧ c ≤ t.2.1 ∧ t.2.1 ≤ d)) ∧
    ∀ t : ℚ × ℚ × String, t ∈ (search_by_region s a b c d).1 ↔
      (t ∈ get_all_locations s ∧ a ≤ t.1 ∧ t.1 ≤ b ∧ c ≤ t.2.1 ∧ t.2.1 ≤ d) := by
  refine ⟨rfl, ?_, ?_⟩
  · simp only [search_by_region, get_all_locations, List.filter_map]
    rfl
  · intro t
    simp only [search_by_region, get_all_locations, List.mem_map, List.mem_filter,
      decide_eq_true_eq]
    constructor
    · rintro ⟨r, ⟨hr, hb⟩, rfl⟩
      exact ⟨⟨r, hr, rfl⟩, hb⟩
    · rintro ⟨⟨r, hr, rfl⟩, hb⟩
      exact ⟨r, ⟨hr, hb⟩, rfl⟩

/-- C8: if fewer than two images yield a valid (non-failing) embedding,
`compute_similarity` returns the empty list. -/
theorem c8_too_few_valid [Inhabited α] (extract : α → Option (List ℝ))
    (paths : List α) (θ : ℝ) (h : (valid_paths extract paths).length < 2) :
    compute_similarity extract paths θ = [] := by
  have hf : (features_of extract paths).length < 2 := by
    simpa [features_of] using h
  simp [compute_similarity, hf]

/-- C8 witness: with an extractor failing on every image, three input images
yield zero valid embeddings and the result is `[]`. -/
theorem c8_too_few_valid_witness :
    (valid_paths ex_none_extract [0, 1, 2]).length < 2 ∧
    compute_similarity ex_none_extract [0, 1, 2] (17/20) = [] := by
  have h : (valid_paths ex_none_extract [0, 1, 2]).length < 2 := by
    simp [valid_paths, ex_none_extract]
  exact ⟨h, c8_too_few_valid ex_none_extract [0, 1, 2] (17/20) h⟩

/-- C7 counterexample: an exception raised while loading the CLIP model
(`load_clip_model()` is called *before* the `try` block) propagates to the
caller instead of producing an empty list, refuting "predict_location never
propagates an internal exception to the caller". -/
theorem c7_load_error_propagates_cex :
    predict_location true (Except.error "boom") (Except.ok ([], [], [])) 5 =
      Except.error "boom" := rfl

/-- Helper: membership in the collected similar indices. -/
theorem mem_similar_indices {sim : ℕ → ℕ → K} {θ : K} {n i j : ℕ} :
    j ∈ similar_indices sim θ n i ↔ j < n ∧ i ≠ j ∧ θ ≤ sim i j := by
  simp [similar_indices, List.mem_filter, List.mem_range]

/-- Helper: the collected similar indices are strictly increasing. -/
theorem similar_indices_sorted (sim : ℕ → ℕ → K) (θ : K) (n i : ℕ) :
    (similar_indices sim θ n i).Pairwise (· < ·) :=
  (List.pairwise_lt_range n).filter _

/-- Helper: the grouping loop emits one group per seed, the seeds are taken
in strictly increasing index order, and each emitted group is its seed
consed onto the seed's collected similar indices. -/
theorem find_groups_go_shape [Inhabited α] (paths : List α) (sim : ℕ → ℕ → K) (θ : K) :
    ∀ (l visited : List ℕ), l.Pairwise (· < ·) →
    ∃ seeds : List ℕ, seeds.Pairwise (· < ·) ∧
      (∀ i ∈ seeds, i ∈ l ∧ similar_indices sim θ paths.length i ≠ []) ∧
      find_groups_go paths sim θ l visited =
        seeds.map (fun i =>
          ((i :: similar_indices sim θ paths.length i).map (fun k => paths.getD k default),
            group_avg sim (i :: similar_indices sim θ paths.length i)))
  | [], _, _ => ⟨[], by simp, by simp, by simp [find_groups_go]⟩
  | i :: rest, visited, hl => by
    have hl1 : ∀ j ∈ rest, i < j := (List.pairwise_cons.mp hl).1
    have hl2 : rest.Pairwise (· < ·) := (List.pairwise_cons.mp hl).2
    by_cases hv : i ∈ visited
    · obtain ⟨seeds, hs1, hs2, hs3⟩ := find_groups_go_shape paths sim θ rest visited hl2
      exact ⟨seeds, hs1,
        fun j hj => ⟨List.mem_cons_of_mem _ (hs2 j hj).1, (hs2 j hj).2⟩,
        by simp [find_groups_go, hv, hs3]⟩
    · by_cases he : (similar_indices sim θ paths.length i).isEmpty = true
      · obtain ⟨seeds, hs1, hs2, hs3⟩ := find_groups_go_shape paths sim θ rest visited hl2
        exact ⟨seeds, hs1,
          fun j hj => ⟨List.mem_cons_of_mem _ (hs2 j hj).1, (hs2 j hj).2⟩,
          by simp [find_groups_go, hv, he, hs3]⟩
      · obtain ⟨seeds, hs1, hs2, hs3⟩ := find_groups_go_shape paths sim θ rest
          (visited ++ i :: similar_indices sim θ paths.length i) hl2
        refine ⟨i :: seeds, ?_, ?_, ?_⟩
        · exact List.pairwise_cons.mpr ⟨fun j hj => hl1 j (hs2 j hj).1, hs1⟩
        · intro j hj
          rcases List.mem_cons.mp hj with rfl | hj'
          · exact ⟨List.mem_cons_self _ _, by simpa [List.isEmpty_iff] using he⟩
          · exact ⟨List.mem_cons_of_mem _ (hs2 j hj').1, (hs2 j hj').2⟩
        · simp [find_groups_go, hv, he, hs3]

/-- Helper: shape of any group returned by `_find_similar_groups`: it is a
seed index `i < n` consed onto `i`'s nonempty list of collected similar
indices, mapped to paths, paired with the group average. -/
theorem mem_find_similar_groups [Inhabited α] {paths : List α} {sim : ℕ → ℕ → K}
    {θ : K} {g : List α × K} (hg : g ∈ find_similar_groups paths sim θ) :
    ∃ i, i < paths.length ∧ similar_indices sim θ paths.length i ≠ [] ∧
      g = ((i :: similar_indices sim θ paths.length i).map (fun k => paths.getD k default),
        group_avg sim (i :: similar_indices sim θ paths.length i)) := by
  obtain ⟨seeds, _, hs2, hs3⟩ :=
    find_groups_go_shape paths sim θ (List.range paths.length) [] (List.pairwise_lt_range _)
  rw [find_similar_groups, hs3] at hg
  obtain ⟨i, hi, hgi⟩ := List.mem_map.mp hg
  exact ⟨i, List.mem_range.mp (hs2 i hi).1, (hs2 i hi).2, hgi.symm⟩

/-- Helper: membership in the index-pair list of the averaging loop. -/
theorem mem_pairs_below {gidx : List ℕ} {p : ℕ × ℕ} :
    p ∈ pairs_below gidx ↔ p.1 ∈ gidx ∧ p.2 ∈ gidx ∧ p.1 < p.2 := by
  obtain ⟨a, b⟩ := p
  simp only [pairs_below, List.mem_flatMap, List.mem_filterMap,
    Option.ite_none_right_eq_some, Option.some.injEq, Prod.mk.injEq]
  constructor
  · rintro ⟨x, hx, y, hy, hlt, rfl, rfl⟩
    exact ⟨hx, hy, hlt⟩
  · rintro ⟨ha, hb, hab⟩
    exact ⟨a, ha, b, hb, hab, rfl, rfl⟩

/-- Helper: every pair contributed by the inner loop for `a` has first
component `a`. -/
theorem pairs_inner_fst {gidx : List ℕ} {a : ℕ} {p : ℕ × ℕ}
    (hp : p ∈ gidx.filterMap (fun b => if a < b then some (a, b) else none)) :
    p.1 = a := by
  obtain ⟨b, _, hb⟩ := List.mem_filterMap.mp hp
  rcases Option.ite_none_right_eq_some.mp hb with ⟨_, hsome⟩
  obtain rfl := Option.some.inj hsome
  rfl

/-- Helper: for distinct group indices, the averaging loop enumerates each
unordered pair at most once. -/
theorem nodup_pairs_below {gidx : List ℕ} (h : gidx.Nodup) : (pairs_below gidx).Nodup := by
  rw [pairs_below, List.nodup_flatMap]
  refine ⟨fun x _ => ?_, ?_⟩
  · refine List.Nodup.filterMap (fun b b' p hb hb' => ?_) h
    rcases Option.ite_none_right_eq_some.mp (Option.mem_def.mp hb) with ⟨_, hsome⟩
    obtain rfl := Option.some.inj hsome
    rcases Option.ite_none_right_eq_some.mp (Option.mem_def.mp hb') with ⟨_, hsome'⟩
    exact ((Prod.ext_iff.mp (Option.some.inj hsome')).2).symm
  · refine h.imp ?_
    intro a b hab
    intro p hpa hpb
    exact hab ((pairs_inner_fst hpa).symm.trans (pairs_inner_fst hpb))

/-- Helper: a group of at least two distinct indices yields at least one
averaging pair. -/
theorem pairs_below_ne_nil {gidx : List ℕ} (hnd : gidx.Nodup) (h2 : 2 ≤ gidx.length) :
    pairs_below gidx ≠ [] := by
  match gidx, hnd, h2 with
  | x :: y :: rest, hnd, _ =>
    have hxy : x ≠ y := by
      have := List.nodup_cons.mp hnd
      exact fun hxyeq => this.1 (hxyeq ▸ List.mem_cons_self _ _)
    rcases lt_or_gt_of_ne hxy with hlt | hgt
    · have hmem : (x, y) ∈ pairs_below (x :: y :: rest) :=
        mem_pairs_below.mpr ⟨by simp, by simp, hlt⟩
      exact List.ne_nil_of_mem hmem
    · have hmem : (y, x) ∈ pairs_below (x :: y :: rest) :=
        mem_pairs_below.mpr ⟨by simp, by simp, hgt⟩
      exact List.ne_nil_of_mem hmem

/-- Helper: for a group of at least two distinct indices, the code's
`avg_similarity` (sum over the `idx1 < idx2` loop divided by the number of
enumerated pairs) equals the spec's arithmetic mean over the finite set of
unordered pairs of distinct members. -/
theorem group_avg_eq_spec {sim : ℕ → ℕ → K} {gidx : List ℕ}
    (hnd : gidx.Nodup) (h2 : 2 ≤ gidx.length) :
    group_avg sim gidx = spec_pair_mean sim gidx.toFinset := by
  have hne := pairs_below_ne_nil hnd h2
  have hpn := nodup_pairs_below hnd
  have hfin : (pairs_below gidx).toFinset = spec_unordered_pairs gidx.toFinset := by
    ext p
    simp only [List.mem_toFinset, mem_pairs_below, spec_unordered_pairs, Finset.mem_filter,
      Finset.mem_product]
    tauto
  have hsum : ((pairs_below gidx).map fun p => sim p.1 p.2).sum =
      ∑ p in spec_unordered_pairs gidx.toFinset, sim p.1 p.2 := by
    rw [← hfin, List.sum_toFinset _ hpn]
  have hcard : (spec_unordered_pairs gidx.toFinset).card = (pairs_below gidx).length := by
    rw [← hfin, List.toFinset_card_of_nodup hpn]
  have hlen : ((pairs_below gidx).map fun p => sim p.1 p.2).length ≠ 0 := by
    simpa using hne
  rw [group_avg, spec_pair_mean]
  simp only [if_neg hlen]
  rw [hsum, hcard, List.length_map]

/-- C3: for every similarity matrix and threshold, every group returned by
the grouping step (`_find_similar_groups`) carries an `avg_similarity`
equal to the arithmetic mean of the pairwise similarities over all
unordered pairs of distinct members (member positions), each pair counted
exactly once. -/
theorem c3_avg_similarity_is_pair_mean [Inhabited α] (paths : List α)
    (sim : ℕ → ℕ → K) (θ : K) (g : List α) (a : K)
    (hg : (g, a) ∈ find_similar_groups paths sim θ) :
    ∃ gidx : List ℕ, gidx.Nodup ∧ 2 ≤ gidx.length ∧
      (∀ j ∈ gidx, j < paths.length) ∧
      g = gidx.map (fun k => paths.getD k default) ∧
      a = spec_pair_mean sim gidx.toFinset := by
  obtain ⟨i, hi, hne, hgeq⟩ := mem_find_similar_groups hg
  have hg1 : g = (i :: similar_indices sim θ paths.length i).map
      (fun k => paths.getD k default) := (Prod.ext_iff.mp hgeq).1
  have hg2 : a = group_avg sim (i :: similar_indices sim θ paths.length i) :=
    (Prod.ext_iff.mp hgeq).2
  have hnodup : (i :: similar_indices sim θ paths.length i).Nodup := by
    refine List.nodup_cons.mpr ⟨?_, ?_⟩
    · intro hmem
      exact (mem_similar_indices.mp hmem).2.1 rfl
    · exact List.Pairwise.imp (fun hab => ne_of_lt hab)
        (similar_indices_sorted sim θ paths.length i)
  have h2 : 2 ≤ (i :: similar_indices sim θ paths.length i).length := by
    have hpos := List.length_pos.mpr hne
    simp only [List.length_cons]
    omega
  refine ⟨i :: similar_indices sim θ paths.length i, hnodup, h2, ?_, hg1,
    by rw [hg2]; exact group_avg_eq_spec hnodup h2⟩
  intro j hj
  rcases List.mem_cons.mp hj with rfl | hj'
  · exact hi
  · exact (mem_similar_indices.mp hj').1

/-- C3 witness: a concrete two-image run over `ℚ` whose single group has
average similarity `1`. -/
theorem c3_avg_similarity_witness :
    (([5, 7], (1 : ℚ)) ∈ find_similar_groups [5, 7] (fun _ _ => (1 : ℚ)) (1/2)) ∧
    ∃ gidx : List ℕ, gidx.Nodup ∧ 2 ≤ gidx.length ∧
      (∀ j ∈ gidx, j < ([5, 7] : List ℕ).length) ∧
      ([5, 7] : List ℕ) = gidx.map (fun k => ([5, 7] : List ℕ).getD k default) ∧
      (1 : ℚ) = spec_pair_mean (fun _ _ => (1 : ℚ)) gidx.toFinset := by
  have heval : find_similar_groups [5, 7] (fun _ _ => (1 : ℚ)) (1/2) = [([5, 7], 1)] := by
    have hr : List.range 2 = [0, 1] := rfl
    norm_num [find_similar_groups, find_groups_go, similar_indices, group_avg, pairs_below, hr,
      List.filter_cons, List.filter_nil, List.filterMap_cons, List.filterMap_nil]
  have hm : (([5, 7], (1 : ℚ)) ∈ find_similar_groups [5, 7] (fun _ _ => (1 : ℚ)) (1/2)) := by
    rw [heval]
    simp
  exact ⟨hm, c3_avg_similarity_is_pair_mean [5, 7] (fun _ _ => (1 : ℚ)) (1/2) [5, 7] 1 hm⟩

/-- Helper: `getD` at an in-range index commutes with `map`. -/
theorem getD_map_of_lt {β γ : Type} {l : List β} {f : β → γ} {i : ℕ}
    (h : i < l.length) (d : β) (d' : γ) :
    (l.map f).getD i d' = f (l.getD i d) := by
  rw [List.getD_eq_getElem?_getD, List.getD_eq_getElem?_getD, List.getElem?_map,
    List.getElem?_eq_getElem h]
  simp

/-- Helper: `getD` at an in-range index is a member. -/
theorem getD_mem_of_lt {β : Type} {l : List β} {i : ℕ} (h : i < l.length) (d : β) :
    l.getD i d ∈ l := by
  rw [List.getD_eq_getElem?_getD, List.getElem?_eq_getElem h]
  exact List.getElem_mem h

/-- Helper: on a duplicate-free list, `getD` at in-range indices is injective. -/
theorem getD_inj_of_nodup {β : Type} {l : List β} (hnd : l.Nodup) {i j : ℕ}
    (hi : i < l.length) (hj : j < l.length) (d d' : β)
    (heq : l.getD i d = l.getD j d') : i = j := by
  rw [List.getD_eq_getElem?_getD, List.getElem?_eq_getElem hi] at heq
  rw [List.getD_eq_getElem?_getD, List.getElem?_eq_getElem hj] at heq
  simp only [Option.getD_some] at heq
  have hget : l.get ⟨i, hi⟩ = l.get ⟨j, hj⟩ := by
    simpa [List.get_eq_getElem] using heq
  exact congrArg Fin.val (List.nodup_iff_injective_get.mp hnd hget)

/-- Helper: the dot product is commutative. -/
theorem dotR_comm (u v : List ℝ) : dotR u v = dotR v u := by
  rw [dotR, dotR, List.zipWith_comm_of_comm]
  exact fun x y => mul_comm x y

/-- Helper: cosine similarity is symmetric. -/
theorem cosineSim_comm (u v : List ℝ) : cosineSim u v = cosineSim v u := by
  rw [cosineSim, cosineSim, dotR_comm]

/-- Helper: `features_of` has one vector per retained image. -/
theorem features_of_length (extract : α → Option (List ℝ)) (paths : List α) :
    (features_of extract paths).length = (valid_paths extract paths).length := by
  simp [features_of]

/-- Helper: the similarity matrix entry at in-range indices is the cosine
similarity of the corresponding retained images' feature vectors. -/
theorem sim_matrix_eq_cosineSim [Inhabited α] {extract : α → Option (List ℝ)}
    {paths : List α} {i j : ℕ} (hi : i < (valid_paths extract paths).length)
    (hj : j < (valid_paths extract paths).length) :
    sim_matrix extract paths i j =
      cosineSim ((extract ((valid_paths extract paths).getD i default)).getD [])
        ((extract ((valid_paths extract paths).getD j default)).getD []) := by
  have hlen : ∀ k, k < (valid_paths extract paths).length →
      ((features_of extract paths).map l2normalize).getD k [] =
        l2normalize ((extract ((valid_paths extract paths).getD k default)).getD []) := by
    intro k hk
    have hk' : k < (features_of extract paths).length := by
      rw [features_of_length]; exact hk
    rw [getD_map_of_lt hk' [] []]
    rw [features_of, getD_map_of_lt hk default []]
  rw [sim_matrix, cosineSim, hlen i hi, hlen j hj]

/-- Helper: membership in `compute_similarity`'s output comes from membership
in the grouping step over the retained images and the similarity matrix. -/
theorem mem_compute_similarity [Inhabited α] {extract : α → Option (List ℝ)}
    {paths : List α} {θ : ℝ} {g : List α × ℝ}
    (hg : g ∈ compute_similarity extract paths θ) :
    g ∈ find_similar_groups (valid_paths extract paths) (sim_matrix extract paths) θ := by
  rw [compute_similarity] at hg
  by_cases h : (features_of extract paths).length < 2
  · rw [if_pos h] at hg
    exact absurd hg (List.not_mem_nil g)
  · rw [if_neg h] at hg
    exact (List.perm_insertionSort _ _).mem_iff.mp hg

/-- C5: every member of a group returned by `compute_similarity` has
similarity at least `threshold` to the group's seed image, which is the
group's first element; all members are retained input images.  (Members
need not be pairwise similar to each other.) -/
theorem c5_members_similar_to_seed [Inhabited α] (extract : α → Option (List ℝ))
    (paths : List α) (θ : ℝ) (g : List α) (a : ℝ)
    (hg : (g, a) ∈ compute_similarity extract paths θ) :
    ∃ s t, g = s :: t ∧ t ≠ [] ∧
      (∀ m ∈ g, m ∈ paths ∧ (extract m).isSome = true) ∧
      ∀ m ∈ t, θ ≤ cosineSim ((extract s).getD []) ((extract m).getD []) := by
  obtain ⟨i, hi, hne, hgeq⟩ := mem_find_similar_groups (mem_compute_similarity hg)
  have hg1 : g = ((valid_paths extract paths).getD i default) ::
      (similar_indices (sim_matrix extract paths) θ (valid_paths extract paths).length i).map
        (fun k => (valid_paths extract paths).getD k default) := by
    simpa using (Prod.ext_iff.mp hgeq).1
  refine ⟨(valid_paths extract paths).getD i default,
    (similar_indices (sim_matrix extract paths) θ (valid_paths extract paths).length i).map
      (fun k => (valid_paths extract paths).getD k default), hg1, ?_, ?_, ?_⟩
  · simpa using hne
  · intro m hm
    rw [hg1] at hm
    have hmem : m ∈ valid_paths extract paths := by
      rcases List.mem_cons.mp hm with rfl | hm'
      · exact getD_mem_of_lt hi default
      · obtain ⟨k, hk, rfl⟩ := List.mem_map.mp hm'
        exact getD_mem_of_lt (mem_similar_indices.mp hk).1 default
    have := List.mem_filter.mp hmem
    exact ⟨this.1, by simpa using this.2⟩
  · intro m hm
    obtain ⟨j, hj, rfl⟩ := List.mem_map.mp hm
    have hjn : j < (valid_paths extract paths).length := (mem_similar_indices.mp hj).1
    have hθ : θ ≤ sim_matrix extract paths i j := (mem_similar_indices.mp hj).2.2
    rwa [sim_matrix_eq_cosineSim hi hjn] at hθ

/-- C9: every group returned by `compute_similarity` lists its seed first,
and the remaining members follow in the order the images appear in the
retained input list (their indices into the retained list are strictly
increasing). -/
theorem c9_group_member_order [Inhabited α] (extract : α → Option (List ℝ))
    (paths : List α) (θ : ℝ) (g : List α) (a : ℝ)
    (hg : (g, a) ∈ compute_similarity extract paths θ) :
    ∃ i js, i < (valid_paths extract paths).length ∧
      (∀ j ∈ js, j < (valid_paths extract paths).length) ∧
      i ∉ js ∧ js.Pairwise (· < ·) ∧ js ≠ [] ∧
      g = (i :: js).map (fun k => (valid_paths extract paths).getD k default) := by
  obtain ⟨i, hi, hne, hgeq⟩ := mem_find_similar_groups (mem_compute_similarity hg)
  refine ⟨i, similar_indices (sim_matrix extract paths) θ (valid_paths extract paths).length i,
    hi, ?_, ?_, ?_, hne, (Prod.ext_iff.mp hgeq).1⟩
  · exact fun j hj => (mem_similar_indices.mp hj).1
  · intro hmem
    exact (mem_similar_indices.mp hmem).2.1 rfl
  · exact similar_indices_sorted _ _ _ _

/-- Helper: normalizing an exactly-unit vector is the identity. -/
theorem l2normalize_of_unit {v : List ℝ} (h : sumSq v = 1) : l2normalize v = v := by
  have hmax : max (Real.sqrt (sumSq v)) (1 / 10 ^ 12) = 1 := by
    rw [h, Real.sqrt_one]
    exact max_eq_left (by norm_num)
  simp only [l2normalize, hmax, div_one, List.map_id']

/-- Helper: all three example images extract successfully. -/
theorem ex_valid : valid_paths ex_extract [0, 1, 2] = [0, 1, 2] := by
  simp [valid_paths, ex_extract]

/-- Helper: the example feature vectors. -/
theorem ex_features : features_of ex_extract [0, 1, 2] =
    [[4/5, 3/5], [1, 0], [4/5, -(3/5)]] := by
  rw [features_of, ex_valid]
  simp [ex_extract]

/-- Helper: the example vectors are unit, so normalization keeps them. -/
theorem ex_normed : (features_of ex_extract [0, 1, 2]).map l2normalize =
    [[4/5, 3/5], [1, 0], [4/5, -(3/5)]] := by
  rw [ex_features]
  simp only [List.map_cons, List.map_nil]
  rw [l2normalize_of_unit (by norm_num [sumSq]), l2normalize_of_unit (by norm_num [sumSq]),
    l2normalize_of_unit (by norm_num [sumSq])]

/-- Helper: example similarity `sim(0,1) = 4/5`. -/
theorem ex_sim01 : sim_matrix ex_extract [0, 1, 2] 0 1 = 4/5 := by
  simp only [sim_matrix, ex_normed, List.getD_cons_zero, List.getD_cons_succ]
  norm_num [dotR]

/-- Helper: example similarity `sim(0,2) = 7/25`. -/
theorem ex_sim02 : sim_matrix ex_extract [0, 1, 2] 0 2 = 7/25 := by
  simp only [sim_matrix, ex_normed, List.getD_cons_zero, List.getD_cons_succ]
  norm_num [dotR]

/-- Helper: example similarity `sim(1,2) = 4/5`. -/
theorem ex_sim12 : sim_matrix ex_extract [0, 1, 2] 1 2 = 4/5 := by
  simp only [sim_matrix, ex_normed, List.getD_cons_zero, List.getD_cons_succ]
  norm_num [dotR]

/-- Helper: example similarity `sim(2,0) = 7/25`. -/
theorem ex_sim20 : sim_matrix ex_extract [0, 1, 2] 2 0 = 7/25 := by
  simp only [sim_matrix, ex_normed, List.getD_cons_zero, List.getD_cons_succ]
  norm_num [dotR]

/-- Helper: example similarity `sim(2,1) = 4/5`. -/
theorem ex_sim21 : sim_matrix ex_extract [0, 1, 2] 2 1 = 4/5 := by
  simp only [sim_matrix, ex_normed, List.getD_cons_zero, List.getD_cons_succ]
  norm_num [dotR]

/-- Helper: seed 0 collects exactly image 1 at threshold 3/4. -/
theorem ex_sidx0 : similar_indices (sim_matrix ex_extract [0, 1, 2]) (3/4) 3 0 = [1] := by
  rw [similar_indices, show List.range 3 = [0, 1, 2] from rfl]
  rw [List.filter_cons, List.filter_cons, List.filter_cons, List.filter_nil]
  norm_num [ex_sim01, ex_sim02]

/-- Helper: seed 2 collects exactly the already-grouped image 1. -/
theorem ex_sidx2 : similar_indices (sim_matrix ex_extract [0, 1, 2]) (3/4) 3 2 = [1] := by
  rw [similar_indices, show List.range 3 = [0, 1, 2] from rfl]
  rw [List.filter_cons, List.filter_cons, List.filter_cons, List.filter_nil]
  norm_num [ex_sim20, ex_sim21]

/-- Helper: average similarity of group `{0, 1}`. -/
theorem ex_avg01 : group_avg (sim_matrix ex_extract [0, 1, 2]) [0, 1] = 4/5 := by
  rw [group_avg, show pairs_below [0, 1] = [(0, 1)] from rfl]
  norm_num [ex_sim01]

/-- Helper: average similarity of group `{2, 1}`. -/
theorem ex_avg21 : group_avg (sim_matrix ex_extract [0, 1, 2]) [2, 1] = 4/5 := by
  rw [group_avg, show pairs_below [2, 1] = [(1, 2)] from rfl]
  norm_num [ex_sim12]

/-- Helper: the grouping step on the example, before sorting. -/
theorem ex_groups : find_similar_groups [0, 1, 2] (sim_matrix ex_extract [0, 1, 2]) (3/4) =
    [([0, 1], (4/5 : ℝ)), ([2, 1], 4/5)] := by
  have hlen : ([0, 1, 2] : List ℕ).length = 3 := rfl
  simp [find_similar_groups, hlen, show List.range 3 = [0, 1, 2] from rfl,
    find_groups_go, ex_sidx0, ex_sidx2, ex_avg01, ex_avg21]

/-- Helper: the full example run of `compute_similarity`: image 1 is a
member of both returned groups. -/
theorem ex_eval : compute_similarity ex_extract [0, 1, 2] (3/4) =
    [([0, 1], (4/5 : ℝ)), ([2, 1], 4/5)] := by
  have hlt : ¬ ((features_of ex_extract [0, 1, 2]).length < 2) := by
    rw [features_of_length, ex_valid]
    norm_num
  rw [compute_similarity, if_neg hlt, ex_valid, ex_groups]
  norm_num [List.insertionSort, List.orderedInsert]

/-- C1 counterexample: the inner collection loop of `_find_similar_groups`
does not skip already-visited images, so image `1` (grouped with seed `0`)
is collected again by seed `2`: two distinct returned groups share the
member `1`, refuting pairwise disjointness of the groups returned by
`compute_similarity`. -/
theorem c1_disjointness_cex :
    ∃ g1 g2, g1 ∈ compute_similarity ex_extract [0, 1, 2] (3/4) ∧
      g2 ∈ compute_similarity ex_extract [0, 1, 2] (3/4) ∧ g1.1 ≠ g2.1 ∧
      (1 : ℕ) ∈ g1.1 ∧ (1 : ℕ) ∈ g2.1 := by
  refine ⟨([0, 1], 4/5), ([2, 1], 4/5), ?_, ?_, by simp, by simp, by simp⟩
  · rw [ex_eval]
    simp
  · rw [ex_eval]
    simp

/-- C1 (amended): for duplicate-free input, each image is the *seed* (first
element) of at most one returned group, and an image whose cosine
similarity to every other retained image is below the threshold appears in
zero groups; full pairwise disjointness, however, does not hold — a
non-seed member can be collected into several groups. -/
theorem c1_seed_disjoint_and_isolated_dropped [Inhabited α]
    (extract : α → Option (List ℝ)) (paths : List α) (θ : ℝ) (hnd : paths.Nodup) :
    ((compute_similarity extract paths θ).map (fun g => g.1.headD default)).Nodup ∧
    (∀ p ∈ valid_paths extract paths,
      (∀ q ∈ valid_paths extract paths, q ≠ p →
        cosineSim ((extract p).getD []) ((extract q).getD []) < θ) →
      ∀ g ∈ compute_similarity extract paths θ, p ∉ g.1) := by
  have hVnd : (valid_paths extract paths).Nodup := hnd.filter _
  constructor
  · by_cases hlt : (features_of extract paths).length < 2
    · simp [compute_similarity, hlt]
    · have hperm : List.Perm
          ((compute_similarity extract paths θ).map (fun g => g.1.headD default))
          ((find_similar_groups (valid_paths extract paths) (sim_matrix extract paths) θ).map
            (fun g => g.1.headD default)) := by
        rw [compute_similarity, if_neg hlt]
        exact (List.perm_insertionSort _ _).map _
      rw [hperm.nodup_iff]
      obtain ⟨seeds, hs1, hs2, hs3⟩ := find_groups_go_shape (valid_paths extract paths)
        (sim_matrix extract paths) θ (List.range (valid_paths extract paths).length) []
        (List.pairwise_lt_range _)
      rw [find_similar_groups, hs3, List.map_map]
      have hcomp : ((fun g : List α × ℝ => g.1.headD default) ∘ fun i =>
          ((i :: similar_indices (sim_matrix extract paths) θ
              (valid_paths extract paths).length i).map
            (fun k => (valid_paths extract paths).getD k default),
           group_avg (sim_matrix extract paths)
            (i :: similar_indices (sim_matrix extract paths) θ
              (valid_paths extract paths).length i))) =
          fun i => (valid_paths extract paths).getD i default := by
        funext i
        simp
      rw [hcomp]
      refine List.Nodup.map_on ?_ (List.Pairwise.imp (fun hab => ne_of_lt hab) hs1)
      intro i hi j hj heq
      exact getD_inj_of_nodup hVnd (List.mem_range.mp (hs2 i hi).1)
        (List.mem_range.mp (hs2 j hj).1) default default heq
  · intro p hp hfar g hgmem hpg
    obtain ⟨i, hi, hne, hgeq⟩ := mem_find_similar_groups (mem_compute_similarity hgmem)
    have hg1 : g.1 = (i :: similar_indices (sim_matrix extract paths) θ
        (valid_paths extract paths).length i).map
          (fun k => (valid_paths extract paths).getD k default) :=
      congrArg Prod.fst hgeq
    rw [hg1] at hpg
    obtain ⟨k, hk, hkp⟩ := List.mem_map.mp hpg
    rcases List.mem_cons.mp hk with rfl | hks
    · obtain ⟨j, hj⟩ := List.exists_mem_of_ne_nil _ hne
      have hjprop := mem_similar_indices.mp hj
      have hq : (valid_paths extract paths).getD j default ∈ valid_paths extract paths :=
        getD_mem_of_lt hjprop.1 default
      have hqp : (valid_paths extract paths).getD j default ≠ p := by
        intro he
        exact hjprop.2.1
          (getD_inj_of_nodup hVnd hi hjprop.1 default default (hkp.trans he.symm))
      have hlt := hfar _ hq hqp
      have hθ := hjprop.2.2
      rw [sim_matrix_eq_cosineSim hi hjprop.1, hkp] at hθ
      linarith
    · have hkprop := mem_similar_indices.mp hks
      have hq : (valid_paths extract paths).getD i default ∈ valid_paths extract paths :=
        getD_mem_of_lt hi default
      have hqp : (valid_paths extract paths).getD i default ≠ p := by
        intro he
        exact hkprop.2.1
          (getD_inj_of_nodup hVnd hi hkprop.1 default default (he.trans hkp.symm))
      have hlt := hfar _ hq hqp
      have hθ := hkprop.2.2
      rw [sim_matrix_eq_cosineSim hi hkprop.1, hkp] at hθ
      rw [cosineSim_comm] at hlt
      linarith

/-- C1 witness (for the amended theorem) at the concrete three-image run. -/
theorem c1_seed_disjoint_witness :
    (([0, 1, 2] : List ℕ).Nodup) ∧
    ((compute_similarity ex_extract [0, 1, 2] (3/4)).map (fun g => g.1.headD default)).Nodup := by
  have hnd : ([0, 1, 2] : List ℕ).Nodup := by decide
  exact ⟨hnd, (c1_seed_disjoint_and_isolated_dropped ex_extract [0, 1, 2] (3/4) hnd).1⟩

/-- C5 witness at the concrete three-image run: group `[0, 1]` has seed `0`
and its member `1` satisfies the threshold against the seed. -/
theorem c5_members_similar_witness :
    (([0, 1], (4/5 : ℝ)) ∈ compute_similarity ex_extract [0, 1, 2] (3/4)) ∧
    ∃ s t, ([0, 1] : List ℕ) = s :: t ∧ t ≠ [] ∧
      (∀ m ∈ ([0, 1] : List ℕ), m ∈ ([0, 1, 2] : List ℕ) ∧ (ex_extract m).isSome = true) ∧
      ∀ m ∈ t, (3/4 : ℝ) ≤ cosineSim ((ex_extract s).getD []) ((ex_extract m).getD []) := by
  have hm : (([0, 1], (4/5 : ℝ)) ∈ compute_similarity ex_extract [0, 1, 2] (3/4)) := by
    rw [ex_eval]
    simp
  exact ⟨hm, c5_members_similar_to_seed ex_extract [0, 1, 2] (3/4) [0, 1] (4/5) hm⟩

/-- C9 witness at the concrete three-image run. -/
theorem c9_group_member_order_witness :
    (([0, 1], (4/5 : ℝ)) ∈ compute_similarity ex_extract [0, 1, 2] (3/4)) ∧
    ∃ i js, i < (valid_paths ex_extract [0, 1, 2]).length ∧
      (∀ j ∈ js, j < (valid_paths ex_extract [0, 1, 2]).length) ∧
      i ∉ js ∧ js.Pairwise (· < ·) ∧ js ≠ [] ∧
      ([0, 1] : List ℕ) = (i :: js).map (fun k => (valid_paths ex_extract [0, 1, 2]).getD k default) := by
  have hm : (([0, 1], (4/5 : ℝ)) ∈ compute_similarity ex_extract [0, 1, 2] (3/4)) := by
    rw [ex_eval]
    simp
  exact ⟨hm, c9_group_member_order ex_extract [0, 1, 2] (3/4) [0, 1] (4/5) hm⟩

/-- Helper: the exponential weights of a nonempty score list have positive
sum. -/
theorem exp_sum_pos {xs : List ℝ} (h : xs ≠ []) : 0 < (xs.map Real.exp).sum := by
  refine List.sum_pos _ ?_ (by simpa using h)
  intro x hx
  obtain ⟨y, _, rfl⟩ := List.mem_map.mp hx
  exact Real.exp_pos y

/-- Helper: softmax of a nonempty score list sums to one. -/
theorem softmax_sum {xs : List ℝ} (h : xs ≠ []) : (softmax xs).sum = 1 := by
  have hpos := exp_sum_pos h
  rw [softmax]
  have hmap : xs.map (fun x => Real.exp x / (xs.map Real.exp).sum) =
      (xs.map Real.exp).map (fun y => y * ((xs.map Real.exp).sum)⁻¹) := by
    rw [List.map_map]
    exact List.map_congr_left fun x _ => div_eq_mul_inv _ _
  rw [hmap, List.sum_map_mul_right, List.map_id']
  exact mul_inv_cancel₀ (ne_of_gt hpos)

/-- Helper: every softmax output lies in `[0, 1]`. -/
theorem softmax_mem_bounds {xs : List ℝ} {x : ℝ} (hx : x ∈ softmax xs) :
    0 ≤ x ∧ x ≤ 1 := by
  obtain ⟨y, hy, rfl⟩ := List.mem_map.mp hx
  have hne : xs ≠ [] := List.ne_nil_of_mem hy
  have hpos := exp_sum_pos hne
  constructor
  · exact div_nonneg (le_of_lt (Real.exp_pos y)) (le_of_lt hpos)
  · rw [div_le_one hpos]
    refine List.single_le_sum ?_ _ (List.mem_map_of_mem Real.exp hy)
    intro z hz
    obtain ⟨w, _, rfl⟩ := List.mem_map.mp hz
    exact le_of_lt (Real.exp_pos w)

/-- C4: with the joint model available and no internal error, the softmax
probabilities over the entire candidate set sum to one, and the returned
list has length at most `min top_k candidate_count`, with each confidence in
`[0, 1]` and the confidences in non-increasing order. -/
theorem c4_predict_location_distribution (locs : List (ℚ × ℚ × String))
    (imgE : List ℝ) (txtE : List (List ℝ)) (topK : ℕ)
    (hlocs : locs ≠ []) (hlen : txtE.length = locs.length) (htop : 1 ≤ topK) :
    (softmax (candidate_scores imgE txtE)).sum = 1 ∧
    ∃ l, predict_location true (Except.ok ()) (Except.ok (locs, imgE, txtE)) topK =
        Except.ok l ∧
      l.length ≤ min topK locs.length ∧
      (∀ x ∈ l, 0 ≤ x.2.2 ∧ x.2.2 ≤ 1) ∧
      (l.map (fun x => x.2.2)).Sorted (fun x y => y ≤ x) := by
  have htxt : txtE ≠ [] := by
    intro he
    rw [he] at hlen
    exact hlocs (List.length_eq_zero.mp hlen.symm)
  have hscores : candidate_scores imgE txtE ≠ [] := by
    simp only [candidate_scores, ne_eq, List.map_eq_nil_iff]
    exact htxt
  refine ⟨softmax_sum hscores, ?_⟩
  haveI htot : IsTotal (ℝ × (ℚ × ℚ × String)) (fun a b => b.1 ≤ a.1) :=
    ⟨fun a b => le_total b.1 a.1⟩
  haveI htrans : IsTrans (ℝ × (ℚ × ℚ × String)) (fun a b => b.1 ≤ a.1) :=
    ⟨fun a b c hab hbc => le_trans hbc hab⟩
  refine ⟨_, rfl, ?_, ?_, ?_⟩
  · rw [List.length_map, List.length_take]
    exact min_le_left _ _
  · intro x hx
    obtain ⟨pl, hpl, rfl⟩ := List.mem_map.mp hx
    have hpl2 : pl ∈ List.insertionSort (fun a b => b.1 ≤ a.1)
        ((softmax (candidate_scores imgE txtE)).zip locs) :=
      List.mem_of_mem_take hpl
    have hpl3 : pl ∈ (softmax (candidate_scores imgE txtE)).zip locs :=
      (List.perm_insertionSort _ _).mem_iff.mp hpl2
    obtain ⟨p, q⟩ := pl
    have hp : p ∈ softmax (candidate_scores imgE txtE) := (List.of_mem_zip hpl3).1
    exact softmax_mem_bounds hp
  · have hsorted := List.sorted_insertionSort (fun a b => b.1 ≤ a.1)
      ((softmax (candidate_scores imgE txtE)).zip locs)
    have htake : (List.take (min topK locs.length)
        (List.insertionSort (fun a b => b.1 ≤ a.1)
          ((softmax (candidate_scores imgE txtE)).zip locs))).Pairwise
        (fun a b => b.1 ≤ a.1) :=
      hsorted.sublist (List.take_sublist _ _)
    rw [List.map_map]
    exact htake.map _ (fun a b hab => hab)

/-- C4 witness at a single candidate with a one-dimensional embedding and
`top_k = 1`. -/
theorem c4_predict_location_witness :
    ([((0 : ℚ), (0 : ℚ), "a")] ≠ ([] : List (ℚ × ℚ × String))) ∧
    ((softmax (candidate_scores [(1 : ℝ)] [[(1 : ℝ)]])).sum = 1 ∧
      ∃ l, predict_location true (Except.ok ())
          (Except.ok ([((0 : ℚ), (0 : ℚ), "a")], [(1 : ℝ)], [[(1 : ℝ)]])) 1 = Except.ok l ∧
        l.length ≤ min 1 ([((0 : ℚ), (0 : ℚ), "a")] : List (ℚ × ℚ × String)).length ∧
        (∀ x ∈ l, 0 ≤ x.2.2 ∧ x.2.2 ≤ 1) ∧
        (l.map (fun x => x.2.2)).Sorted (fun x y => y ≤ x)) := by
  refine ⟨by simp, ?_⟩
  exact c4_predict_location_distribution [((0 : ℚ), (0 : ℚ), "a")] [(1 : ℝ)] [[(1 : ℝ)]] 1
    (by simp) rfl (le_refl 1)

/-- C7 (amended): if the joint embedding model is unavailable,
`predict_location` returns an empty list immediately; any exception raised
inside the ranking `try` block also yields an empty list; but an exception
raised by the model-loading step, which runs outside the `try` block,
propagates to the caller. -/
theorem c7_exception_boundary :
    (∀ (lm : Except String Unit) run k, predict_location false lm run k = Except.ok []) ∧
    (∀ (e : String) run k, predict_location true (Except.error e) run k = Except.error e) ∧
    (∀ (e : String) k, predict_location true (Except.ok ()) (Except.error e) k = Except.ok []) ∧
    (∀ locs imgE txtE k, ∃ l,
      predict_location true (Except.ok ()) (Except.ok (locs, imgE, txtE)) k = Except.ok l) := by
  exact ⟨fun lm run k => rfl, fun e run k => rfl, fun e k => rfl,
    fun locs imgE txtE k => ⟨_, rfl⟩⟩

end GeoSetter
